import Mathlib

/-!
Verification of the spectrum-binning subsystem of ms2deepscore.

The embedding models masses, intensities and weights as rationals (the
Python code works on numpy float arrays; every concrete value exercised
here is an exact decimal, so rational arithmetic reproduces it exactly).
Peak-intensity scaling (`intensities ** peak_scaling`) is modelled with a
natural-number exponent: the exponents the specification's examples and
the repository's tests exercise are 1.0 and 0.0, which are exact; a
fractional exponent would require real powers and is out of scope here.
Fallible Python code (raised exceptions) is modelled with `Except`.
-/

namespace MS2DeepScore

/-- A spectrum: equal-length mass and intensity sequences plus an opaque
identity key, modelling `matchms.Spectrum` with metadata lookup of
"inchikey" (the only metadata the binner reads). -/
structure Spectrum where
  mz : List ℚ
  intensities : List ℚ
  inchikey : Option String
deriving DecidableEq, Repr

/-- Modelled from the spec: `BinnedSpectrum.py` is not among the staged
source files. A binned spectrum is a sparse position-to-weight mapping
plus the identity key carried over from the source spectrum
(spec section 3, "Binned spectrum"). The mapping is an association list
with pairwise distinct keys, in first-occurrence order as a Python dict. -/
structure BinnedSpectrum where
  binned_peaks : List (ℕ × ℚ)
  inchikey : Option String
deriving DecidableEq, Repr

/-- Adds one (position, weight) pair to an association list: if the
position is already present its weight is increased, otherwise the pair
is appended at the end (Python dict insertion order). -/
def addPeak : List (ℕ × ℚ) → ℕ × ℚ → List (ℕ × ℚ)
  | [], pw => [pw]
  | (p, w) :: rest, pw =>
      if p = pw.1 then (p, w + pw.2) :: rest else (p, w) :: addPeak rest pw

/-- Modelled from the spec: `utils.create_peak_dict` is not among the
staged source files. It merges an encoded peak list into a
position-to-weight mapping, duplicate positions within one spectrum
having their weights summed (spec section 4.4, step 1). -/
def create_peak_dict (peak_list : List (ℕ × ℚ)) : List (ℕ × ℚ) :=
  peak_list.foldl addPeak []

/-! ## Custom-edges binning (`spectrum_binning_custom`, modelled)

`spectrum_binning_custom.py` is not among the staged source files; only
its callers (`SpectrumBinnerCustom.py`) and its tests are. The functions
below are modelled from the spec (sections 4.1 to 4.3) and match the
expectations recorded in `tests/test_spectrum_binning_custom.py`.
Python's `sorted(set(...))` (the ascending enumeration of the distinct
elements) is modelled as insertion sort over the deduplicated list. -/

/-- Modelled from the spec: the custom-edges quantizer (spec section 4.1).
Given the strictly increasing boundary array `mz_bins = E` of length
B + 1, a mass `m` maps to the index `i` with `E[i] <= m < E[i+1]`
(right-open histogram binning); a mass outside `[E[0], E[B])` maps to no
bin. The index is computed as the number of edges at most `m`, minus
one. -/
def bin_number_custom (mz_bins : List ℚ) (m : ℚ) : Option ℤ :=
  match mz_bins.getLast? with
  | none => none
  | some lastEdge =>
      let c := (mz_bins.filter (fun e => decide (e ≤ m))).length
      if 1 ≤ c ∧ m < lastEdge then some ((c : ℤ) - 1) else none

/-- Modelled from the spec: vectorized custom-edges quantization; masses
that map to no valid bin are excluded (spec section 4.1; the test
`test_bin_number_array_custom` shows out-of-range masses dropped from
the output array). -/
def bin_number_array_custom (mz : List ℚ) (mz_bins : List ℚ) : List ℤ :=
  mz.filterMap (bin_number_custom mz_bins)

/-- Modelled from the spec: the custom-edges Vocabulary Builder
(spec section 4.2), the custom twin of `unique_peaks_linear`
(`spectrum_binning_linear.py` lines 54-66): collect the set of observed
bin indices over all spectra, sort it ascending, and enumerate it,
returning the bin-to-position mapping (as an association list in
ascending bin order) and the sorted list of known bins. -/
def unique_peaks_custom (spectrums : List Spectrum) (mz_bins : List ℚ) :
    List (ℤ × ℕ) × List ℤ :=
  let all_bins := (spectrums.map (fun s => bin_number_array_custom s.mz mz_bins)).flatten
  let unique_peaks := List.insertionSort (· ≤ ·) all_bins.dedup
  (unique_peaks.enum.map (fun p => (p.2, p.1)), unique_peaks)

/-- Modelled from the spec: the per-spectrum Peak-List Encoder for custom
edges (spec section 4.3), the custom twin of the loop body of
`create_peak_list_linear`. Each peak is quantized; a peak whose bin is
absent from the vocabulary (or which maps to no bin) is dropped; kept
peaks yield (vocabulary position, scaled weight) pairs in original peak
order. The missing fraction is 1 when no peak is in the vocabulary, and
otherwise the scaled weight of the dropped peaks over the scaled weight
of all peaks. -/
def encode_custom (peaks_vocab : List (ℤ × ℕ)) (mz_bins : List ℚ)
    (peak_scaling : ℕ) (s : Spectrum) : List (ℕ × ℚ) × ℚ :=
  let weights := s.intensities.map (fun x => x ^ peak_scaling)
  let docw := (s.mz.map (bin_number_custom mz_bins)).zip weights
  let in_vocab := docw.filterMap (fun bw =>
    match bw.1 with
    | some b => (peaks_vocab.lookup b).map (fun pos => (pos, bw.2))
    | none => none)
  let missing := docw.filter (fun bw =>
    match bw.1 with
    | some b => (peaks_vocab.lookup b).isNone
    | none => true)
  (in_vocab,
   if in_vocab = [] then 1 else (missing.map Prod.snd).sum / weights.sum)

/-- Modelled from the spec: `create_peak_list_custom`, the custom twin of
`create_peak_list_linear` (`spectrum_binning_linear.py` lines 7-51):
encodes every spectrum against the frozen vocabulary, returning the list
of encoded peak lists and the list of missing fractions, both in input
order. -/
def create_peak_list_custom (spectrums : List Spectrum)
    (peaks_vocab : List (ℤ × ℕ)) (mz_bins : List ℚ) (peak_scaling : ℕ) :
    List (List (ℕ × ℚ)) × List ℚ :=
  ((spectrums.map (encode_custom peaks_vocab mz_bins peak_scaling)).map Prod.fst,
   (spectrums.map (encode_custom peaks_vocab mz_bins peak_scaling)).map Prod.snd)

/-! ## The binner session (`SpectrumBinnerCustom.py`) -/

/-- The state of a `SpectrumBinnerCustom` instance
(`SpectrumBinnerCustom.py` lines 20-44): quantization parameters fixed at
construction, and the vocabulary fields, absent (`none`, Python `None`)
until `fit_transform` sets them. -/
structure SpectrumBinnerCustom where
  number_of_bins : ℤ
  mz_bins : List ℚ
  mz_max : ℚ
  mz_min : ℚ
  peak_scaling : ℕ
  allowed_missing_percentage : ℚ
  peak_to_position : Option (List (ℤ × ℕ))
  known_bins : Option (List ℤ)
deriving DecidableEq, Repr

/-- Embeds `SpectrumBinnerCustom.__init__` (lines 20-44). The constructor
performs no validation: it reads `len(mz_bins) - 1`, `mz_bins[-1]` and
`mz_bins[0]`, so the only failing input is an empty edge array, on which
the `[-1]` index raises `IndexError`; non-increasing edges and arbitrary
parameter values are accepted. -/
def SpectrumBinnerCustom.init (mz_bins : List ℚ) (peak_scaling : ℕ)
    (allowed_missing_percentage : ℚ) : Except String SpectrumBinnerCustom :=
  match mz_bins.getLast?, mz_bins.head? with
  | some mzMax, some mzMin =>
      .ok { number_of_bins := (mz_bins.length : ℤ) - 1
            mz_bins := mz_bins
            mz_max := mzMax
            mz_min := mzMin
            peak_scaling := peak_scaling
            allowed_missing_percentage := allowed_missing_percentage
            peak_to_position := none
            known_bins := none }
  | _, _ => .error "IndexError: index -1 is out of bounds for axis 0 with size 0"

/-- Embeds the assembly loop of `SpectrumBinnerCustom.transform`
(lines 107-116): walk the encoded peak lists (zipped with their missing
fractions and source spectra) in input order; each entry is admitted only
if `100 * missing_fraction <= allowed_missing_percentage`, the first
violating entry raising `AssertionError` so that the whole call fails
with no partial results. -/
def assemble (allowed_missing_percentage : ℚ) :
    List (List (ℕ × ℚ) × ℚ × Spectrum) → Except String (List BinnedSpectrum)
  | [] => .ok []
  | (peak_list, mf, s) :: rest =>
      if 100 * mf ≤ allowed_missing_percentage then
        match assemble allowed_missing_percentage rest with
        | .ok out =>
            .ok ({ binned_peaks := create_peak_dict peak_list
                   inchikey := s.inchikey } :: out)
        | .error e => .error e
      else .error "AssertionError: of weighted spectrum is unknown to the model"

/-- Embeds `SpectrumBinnerCustom.transform` (lines 88-116). When the
session is unfit, Python passes `self.peak_to_position = None` into
`create_peak_list_custom`, whose membership test `x in peaks_vocab.keys()`
(see the linear twin, `spectrum_binning_linear.py` line 40) raises
`AttributeError` on `None`; the embedding surfaces that crash at the call
site as an error. On a fit session it encodes every spectrum and runs
the assembly loop. -/
def SpectrumBinnerCustom.transform (b : SpectrumBinnerCustom)
    (input_spectrums : List Spectrum) : Except String (List BinnedSpectrum) :=
  match b.peak_to_position with
  | none => .error "AttributeError: NoneType object has no attribute keys"
  | some vocab =>
      let pl := create_peak_list_custom input_spectrums vocab b.mz_bins b.peak_scaling
      assemble b.allowed_missing_percentage (pl.1.zip (pl.2.zip input_spectrums))

/-- Embeds `SpectrumBinnerCustom.fit_transform` (lines 64-86): build the
vocabulary with `unique_peaks_custom`, store it in `peak_to_position` and
`known_bins` (overwriting whatever was there), then run `transform` on
the same input. Returns the updated session together with the transform
result. -/
def SpectrumBinnerCustom.fit_transform (b : SpectrumBinnerCustom)
    (spectrums : List Spectrum) :
    SpectrumBinnerCustom × Except String (List BinnedSpectrum) :=
  let pk := unique_peaks_custom spectrums b.mz_bins
  let b2 := { b with peak_to_position := some pk.1, known_bins := some pk.2 }
  (b2, b2.transform spectrums)

/-- Embeds `SpectrumBinnerCustom.to_json` (lines 118-120):
`json.dumps(self.__dict__)` serializes the instance dictionary, whose
`mz_bins` entry is a numpy array; `json.dumps` rejects it with
`TypeError: Object of type ndarray is not JSON serializable`, so the call
fails on every instance of this class. -/
def SpectrumBinnerCustom.to_json (b : SpectrumBinnerCustom) :
    Except String String :=
  .error "TypeError: Object of type ndarray is not JSON serializable"

/-- Embeds `SpectrumBinnerCustom.from_json` (lines 46-62): the class
method calls `cls(number_of_bins, mz_max, mz_min, peak_scaling,
allowed_missing_percentage)` with five positional arguments, but
`SpectrumBinnerCustom.__init__` accepts only `(mz_bins, peak_scaling,
allowed_missing_percentage)`; the call raises `TypeError` before any
instance is created, so deserialization fails on every input string. -/
def SpectrumBinnerCustom.from_json (json_str : String) :
    Except String SpectrumBinnerCustom :=
  .error "TypeError: init takes from 2 to 4 positional arguments but 6 were given"

/-! ## Linear-width binning (`spectrum_binning_linear.py`)

The linear quantizer with nonzero slope evaluates a floating-point square
root (line 89), which has no exact shallow embedding; the pipeline
functions below therefore take the per-mass bin computation as an
explicit function parameter `binf`, standing for
`fun m => bin_number_array_linear([m], min_bin_size, slope, mz_min)[0]`.
The `slope == 0` branch (line 91) is exact rational arithmetic and is
embedded literally as `bin_number_linear_zero`. -/

/-- Truncation toward zero of a rational, the semantics of numpy's
`.astype(int)` applied in `bin_number_array_linear` (line 92). -/
def ratTrunc (q : ℚ) : ℤ := q.num.tdiv q.den

/-- Embeds the `slope == 0` branch of `bin_number_array_linear`
(`spectrum_binning_linear.py` line 91) for one mass: the literal
degenerate formula `mz / min_bin_size - mz_min * min_bin_size`, truncated
toward zero by `.astype(int)`. -/
def bin_number_linear_zero (min_bin_size mz_min : ℚ) (m : ℚ) : ℤ :=
  ratTrunc (m / min_bin_size - mz_min * min_bin_size)

/-- Embeds `bin_number_array_linear` (lines 87-92) restricted to
`slope == 0`: the degenerate formula applied elementwise to the mass
array. The `slope != 0` branch is floating-point and is represented by an
abstract `binf` parameter in the functions below. -/
def bin_number_array_linear_zero (mz : List ℚ) (min_bin_size mz_min : ℚ) :
    List ℤ :=
  mz.map (bin_number_linear_zero min_bin_size mz_min)

/-- The multiset of quantized bins over a spectrum collection, the
content of the set built by the loop of `unique_peaks_linear`
(lines 56-59); `binf` abstracts the per-mass quantization. -/
def all_bins_linear (binf : ℚ → ℤ) (spectrums : List Spectrum) : List ℤ :=
  (spectrums.map (fun s => s.mz.map binf)).flatten

/-- Embeds `unique_peaks_linear` (`spectrum_binning_linear.py` lines
54-66): collect the set of observed bins, sort it ascending
(`sorted(unique_peaks)`, modelled as insertion sort over the
deduplicated bin list), and enumerate it, returning the bin-to-position
association list (in ascending bin order, positions 0, 1, 2, ...) and the
sorted list of unique bins. -/
def unique_peaks_linear (binf : ℚ → ℤ) (spectrums : List Spectrum) :
    List (ℤ × ℕ) × List ℤ :=
  let unique_peaks := List.insertionSort (· ≤ ·) (all_bins_linear binf spectrums).dedup
  (unique_peaks.enum.map (fun p => (p.2, p.1)), unique_peaks)

/-- Embeds the loop body of `create_peak_list_linear`
(`spectrum_binning_linear.py` lines 34-49) for one spectrum: quantize the
masses (`doc`), scale the intensities (`weights`), find the index lists
of peaks whose bin is a key of `peaks_vocab` and its complement, zip the
vocabulary positions with the in-vocabulary weights, and report the
missing fraction: 1.0 when no index is in vocabulary, else the sum of the
out-of-vocabulary weights over the sum of all weights. -/
def encode_linear (binf : ℚ → ℤ) (peaks_vocab : List (ℤ × ℕ))
    (peak_scaling : ℕ) (s : Spectrum) : List (ℕ × ℚ) × ℚ :=
  let doc := s.mz.map binf
  let weights := s.intensities.map (fun x => x ^ peak_scaling)
  let idx_in_vocab := (List.range doc.length).filter
    (fun i => (peaks_vocab.lookup (doc.getD i 0)).isSome)
  let idx_not_in_vocab := (List.range doc.length).filter
    (fun i => !(decide (i ∈ idx_in_vocab)))
  let doc_bow := idx_in_vocab.map
    (fun i => (peaks_vocab.lookup (doc.getD i 0)).getD 0)
  (doc_bow.zip (idx_in_vocab.map (fun i => weights.getD i 0)),
   if idx_in_vocab = [] then 1
   else (idx_not_in_vocab.map (fun i => weights.getD i 0)).sum / weights.sum)

/-- Embeds `create_peak_list_linear` (lines 7-51): encode every spectrum
against the frozen vocabulary, returning the encoded peak lists and the
missing fractions, both in input order. -/
def create_peak_list_linear (binf : ℚ → ℤ) (spectrums : List Spectrum)
    (peaks_vocab : List (ℤ × ℕ)) (peak_scaling : ℕ) :
    List (List (ℕ × ℚ)) × List ℚ :=
  ((spectrums.map (encode_linear binf peaks_vocab peak_scaling)).map Prod.fst,
   (spectrums.map (encode_linear binf peaks_vocab peak_scaling)).map Prod.snd)

/-! ## Concrete fixtures

The inputs of the repository's tests, used by the example theorem and the
witnesses. All decimals are exact rationals. -/

/-- numpy `linspace`: `num` evenly spaced values from `start` to `stop`
inclusive. -/
def linspace (start stop : ℚ) (num : ℕ) : List ℚ :=
  (List.range num).map (fun i => start + (stop - start) * i / ((num : ℚ) - 1))

/-- The bin edges `linspace(0, 100, 101)` of the end-to-end example: 100
unit-width bins from 0 to 100. -/
def edges100 : List ℚ := linspace 0 100 101

/-- Spectrum S1 of the end-to-end example. -/
def spectrum1 : Spectrum :=
  ⟨[10, 50, 999/10], [7/10, 1/5, 1/10], some "test_inchikey_01"⟩

/-- Spectrum S2 of the end-to-end example. -/
def spectrum2 : Spectrum :=
  ⟨[10, 40, 90], [2/5, 1/5, 1/10], some "test_inchikey_02"⟩

/-- The unfit session `SpectrumBinnerCustom(linspace(0, 100, 101),
peak_scaling=1.0)` with `allowed_missing_percentage = 0`. -/
def binner0 : SpectrumBinnerCustom :=
  { number_of_bins := 100
    mz_bins := edges100
    mz_max := 100
    mz_min := 0
    peak_scaling := 1
    allowed_missing_percentage := 0
    peak_to_position := none
    known_bins := none }

/-- First training spectrum of the transform tests. -/
def spectrum3 : Spectrum :=
  ⟨[10, 20, 50, 99], [7/10, 3/5, 1/5, 1/10], some "test_inchikey_01"⟩

/-- Second training spectrum of the transform tests. -/
def spectrum4 : Spectrum :=
  ⟨[10, 30, 40, 90], [2/5, 1/2, 1/5, 1/10], some "test_inchikey_02"⟩

/-- A spectrum whose bins are all known to the session fit on
`spectrum3` and `spectrum4`. -/
def spectrum5 : Spectrum :=
  ⟨[10, 20, 30, 50], [2/5, 1/2, 1/5, 1], some "test_inchikey_03"⟩

/-- A spectrum with one peak (mass 80) unknown to the session fit on
`spectrum3` and `spectrum4`. -/
def spectrum6 : Spectrum :=
  ⟨[10, 20, 30, 80], [2/5, 1/2, 1/5, 1], some "test_inchikey_03"⟩

/-- The session of `binner0` after fitting on `spectrum3` and
`spectrum4` (its known bins are [10, 20, 30, 40, 50, 90, 99]). -/
def binnerFit : SpectrumBinnerCustom :=
  (binner0.fit_transform [spectrum3, spectrum4]).1

/-- The vocabulary stored in `binnerFit`: the bin-to-position mapping
built from `spectrum3` and `spectrum4` over `edges100`. -/
def vocabFit : List (ℤ × ℕ) :=
  (unique_peaks_custom [spectrum3, spectrum4] edges100).1

/-- A collection observing the bins 10 and 20 (under the zero-slope
quantizer with `min_bin_size = 1`, `mz_min = 10`), in this order. -/
def spectrumBinsA : Spectrum := ⟨[20, 30], [1, 1], none⟩

/-- A collection observing the same set of bins as `spectrumBinsA` but
in reversed order and with a repetition. -/
def spectrumBinsB : Spectrum := ⟨[30, 20, 20], [1, 1, 1], none⟩

/-! ## Theorems -/

/-- C1: fitting the binner with edges `linspace(0, 100, 101)` and
`peak_scaling = 1` on S1 (masses [10, 50, 99.9], intensities
[0.7, 0.2, 0.1]) and S2 (masses [10, 40, 90], intensities
[0.4, 0.2, 0.1]) stores `known_bins = [10, 40, 50, 90, 99]`, and S1's
binned spectrum is the mapping 0 to 0.7, 2 to 0.2, 4 to 0.1 with S1's
identity key carried through. -/
theorem fit_transform_end_to_end :
    SpectrumBinnerCustom.init edges100 1 0 = .ok binner0 ∧
    (binner0.fit_transform [spectrum1, spectrum2]).1.known_bins
      = some [10, 40, 50, 90, 99] ∧
    (binner0.fit_transform [spectrum1, spectrum2]).2 =
      .ok [{ binned_peaks := [(0, 7/10), (2, 1/5), (4, 1/10)]
             inchikey := some "test_inchikey_01" },
           { binned_peaks := [(0, 2/5), (1, 1/5), (3, 1/10)]
             inchikey := some "test_inchikey_02" }] := by
  refine ⟨?_, ?_, ?_⟩ <;> with_unfolding_all rfl

/-- C10: `fit_transform` only (re)writes the vocabulary fields
`peak_to_position` and `known_bins` of the session, leaving every
quantization parameter unchanged, and the vocabulary it stores is built
from the new input collection alone — refitting an already-fit session
overwrites the previous vocabulary unconditionally. -/
theorem fit_transform_frame (b : SpectrumBinnerCustom)
    (spectrums : List Spectrum) :
    (b.fit_transform spectrums).1 =
      { b with
        peak_to_position := some (unique_peaks_custom spectrums b.mz_bins).1
        known_bins := some (unique_peaks_custom spectrums b.mz_bins).2 } ∧
    ∀ p k,
      (SpectrumBinnerCustom.fit_transform
          { b with peak_to_position := p, known_bins := k } spectrums).1
        = (b.fit_transform spectrums).1 :=
  ⟨rfl, fun _ _ => rfl⟩

/-- C5 (code bug): serialization cannot round-trip. `to_json` fails on
every session (`json.dumps` rejects the numpy `mz_bins` field) and
`from_json` fails on every input (it passes five positional arguments to
the three-parameter constructor), so no fit session is ever reproduced
from its serialized form. -/
theorem json_round_trip_impossible (b : SpectrumBinnerCustom) :
    (∀ js, b.to_json ≠ .ok js) ∧
    (∀ js b2, SpectrumBinnerCustom.from_json js ≠ .ok b2) :=
  ⟨fun _ h => Except.noConfusion h, fun _ _ h => Except.noConfusion h⟩

/-- C9 (counterexample): a session is constructed without any error from
the non-increasing bin-edge array [10, 5, 7] — construction does not
fail on malformed edges, contradicting the claim; the nonsensical state
`mz_max = 7 < mz_min = 10` is accepted silently. -/
theorem init_accepts_nonincreasing_edges :
    SpectrumBinnerCustom.init [10, 5, 7] 1 0 =
      .ok { number_of_bins := 2
            mz_bins := [10, 5, 7]
            mz_max := 7
            mz_min := 10
            peak_scaling := 1
            allowed_missing_percentage := 0
            peak_to_position := none
            known_bins := none } := rfl

/-- C9 (amended): construction fails exactly on an empty bin-edge array
(the `mz_bins[-1]` access raises `IndexError`); every nonempty edge
array — increasing or not — and every parameter value is accepted, with
no validation deferred or otherwise. -/
theorem init_fails_exactly_on_empty_edges (mz_bins : List ℚ)
    (peak_scaling : ℕ) (allowed_missing_percentage : ℚ) :
    (∃ msg, SpectrumBinnerCustom.init mz_bins peak_scaling
        allowed_missing_percentage = .error msg)
      ↔ mz_bins = [] := by
  constructor
  · intro ⟨msg, h⟩
    cases hmz : mz_bins with
    | nil => rfl
    | cons a l =>
      subst hmz
      obtain ⟨x, hx⟩ := Option.isSome_iff_exists.1
        (List.getLast?_isSome.2 (List.cons_ne_nil a l))
      simp [SpectrumBinnerCustom.init, hx] at h
  · intro h
    subst h
    exact ⟨_, rfl⟩

/-- C9 (amended, witness): the empty array is rejected with an error and
the concrete nonempty (non-increasing) array [10, 5, 7] is not. -/
theorem init_fails_exactly_on_empty_edges_witness :
    ((∃ msg, SpectrumBinnerCustom.init [] 1 0 = .error msg) ↔ ([] : List ℚ) = []) ∧
    ((∃ msg, SpectrumBinnerCustom.init [10, 5, 7] 1 0 = .error msg)
      ↔ ([10, 5, 7] : List ℚ) = []) :=
  ⟨init_fails_exactly_on_empty_edges [] 1 0,
   init_fails_exactly_on_empty_edges [10, 5, 7] 1 0⟩

/-- C7: with slope exactly 0 the linear quantizer returns the truncation
toward zero of the literal degenerate formula
`m / min_bin_size - mz_min * min_bin_size`, which differs from the
fixed-width formula `floor((m - mz_min) / min_bin_size)`: at mass 20 with
`min_bin_size = 0.1` and `mz_min = 10` the code yields bin 199 while the
fixed-width formula yields bin 100. -/
theorem bin_number_linear_zero_slope_literal :
    (∀ (mz : List ℚ) (min_bin_size mz_min : ℚ),
        bin_number_array_linear_zero mz min_bin_size mz_min
          = mz.map (fun m => ratTrunc (m / min_bin_size - mz_min * min_bin_size))) ∧
    bin_number_array_linear_zero [20] (1/10) 10
      ≠ [Rat.floor (((20 : ℚ) - 10) / (1/10))] := by
  refine ⟨fun _ _ _ => rfl, ?_⟩
  with_unfolding_all decide

/-- C8: on a session whose vocabulary is absent (`peak_to_position =
None`, i.e. `fit_transform` was never run), `transform` fails with an
error — the `None` vocabulary crashes the membership test — and in
particular never silently returns a list of binned spectra. -/
theorem transform_before_fit_fails (b : SpectrumBinnerCustom)
    (input_spectrums : List Spectrum) (h : b.peak_to_position = none) :
    (∃ msg, b.transform input_spectrums = .error msg) ∧
    ∀ out, b.transform input_spectrums ≠ .ok out := by
  unfold SpectrumBinnerCustom.transform
  rw [h]
  exact ⟨⟨_, rfl⟩, fun _ hc => Except.noConfusion hc⟩

/-- C8 (witness): the freshly constructed session `binner0` is unfit and
its `transform` fails on a concrete batch. -/
theorem transform_before_fit_fails_witness :
    (∃ msg, binner0.transform [spectrum1] = .error msg) ∧
    ∀ out, binner0.transform [spectrum1] ≠ .ok out :=
  transform_before_fit_fails binner0 [spectrum1] rfl

/-- C4: every vocabulary produced by the Vocabulary Builder has its
known-bins list strictly increasing, and the bin-to-position mapping
assigns the positions 0, 1, 2, ... with no gaps in ascending order of
bin index: position `p` of the mapping names exactly the bin stored at
index `p` of the sorted known-bins list. -/
theorem unique_peaks_linear_ordering (binf : ℚ → ℤ)
    (spectrums : List Spectrum) :
    List.Sorted (· < ·) (unique_peaks_linear binf spectrums).2 ∧
    (unique_peaks_linear binf spectrums).1.map Prod.snd
      = List.range (unique_peaks_linear binf spectrums).2.length ∧
    ∀ bp ∈ (unique_peaks_linear binf spectrums).1,
      (unique_peaks_linear binf spectrums).2.get? bp.2 = some bp.1 := by
  have h2 : (unique_peaks_linear binf spectrums).2
      = List.insertionSort (· ≤ ·) (all_bins_linear binf spectrums).dedup := rfl
  have h1 : (unique_peaks_linear binf spectrums).1
      = (List.insertionSort (· ≤ ·)
          (all_bins_linear binf spectrums).dedup).enum.map
            (fun p => (p.2, p.1)) := rfl
  refine ⟨?_, ?_, ?_⟩
  · rw [h2]
    exact (List.sorted_insertionSort _ _).lt_of_le
      ((List.perm_insertionSort _ _).symm.nodup (List.nodup_dedup _))
  · rw [h1, h2]
    simp [List.map_map, Function.comp_def, List.enum_map_fst]
  · intro bp hbp
    rw [h1] at hbp
    obtain ⟨q, hq, rfl⟩ := List.mem_map.1 hbp
    rw [h2, List.get?_eq_getElem?]
    exact List.mem_enum_iff_getElem?.1 hq

/-- C6: the Vocabulary Builder is insensitive to the order and
multiplicity in which bins are collected from the input — any two
collections observing the same set of quantized bins yield identical
bin-to-position mappings and identical known-bins lists; rerunning it on
the same input (a pure function) is the special case of equal inputs. -/
theorem unique_peaks_linear_deterministic (binf : ℚ → ℤ)
    (spectrums1 spectrums2 : List Spectrum)
    (h : (all_bins_linear binf spectrums1).toFinset
        = (all_bins_linear binf spectrums2).toFinset) :
    unique_peaks_linear binf spectrums1 = unique_peaks_linear binf spectrums2 := by
  have hmem : ∀ b : ℤ, b ∈ (all_bins_linear binf spectrums1).dedup
      ↔ b ∈ (all_bins_linear binf spectrums2).dedup := by
    intro b
    rw [List.mem_dedup, List.mem_dedup, ← List.mem_toFinset,
      ← List.mem_toFinset, h]
  have hperm := (List.perm_ext_iff_of_nodup (List.nodup_dedup _)
    (List.nodup_dedup _)).2 hmem
  have hsort : List.insertionSort (· ≤ ·) (all_bins_linear binf spectrums1).dedup
      = List.insertionSort (· ≤ ·) (all_bins_linear binf spectrums2).dedup :=
    List.eq_of_perm_of_sorted
      (((List.perm_insertionSort _ _).trans hperm).trans
        (List.perm_insertionSort _ _).symm)
      (List.sorted_insertionSort _ _) (List.sorted_insertionSort _ _)
  unfold unique_peaks_linear
  rw [hsort]

/-- C6 (witness): two concrete collections listing the bins 10 and 20 in
different orders and multiplicities produce the same vocabulary. -/
theorem unique_peaks_linear_deterministic_witness :
    unique_peaks_linear (bin_number_linear_zero 1 10) [spectrumBinsA]
      = unique_peaks_linear (bin_number_linear_zero 1 10) [spectrumBinsB] :=
  unique_peaks_linear_deterministic (bin_number_linear_zero 1 10)
    [spectrumBinsA] [spectrumBinsB] (by with_unfolding_all decide)

/-- Helper: an element of the right list of a zip of sufficient left
length appears in the zip. -/
theorem mem_zip_left_of_mem {α β : Type _} (l₁ : List α) (l₂ : List β)
    (b : β) (hb : b ∈ l₂) (hlen : l₂.length ≤ l₁.length) :
    ∃ a, (a, b) ∈ l₁.zip l₂ := by
  induction l₂ generalizing l₁ with
  | nil => simp at hb
  | cons y t ih =>
    cases l₁ with
    | nil => simp at hlen
    | cons x s =>
      rcases List.mem_cons.1 hb with h1 | h2
      · exact ⟨x, by simp [h1]⟩
      · obtain ⟨a, ha⟩ := ih s h2 (by simpa using hlen)
        exact ⟨a, List.mem_cons_of_mem _ ha⟩

/-- Helper: an element of the left list of a zip of sufficient right
length appears in the zip. -/
theorem mem_zip_right_of_mem {α β : Type _} (l₁ : List α) (l₂ : List β)
    (a : α) (ha : a ∈ l₁) (hlen : l₁.length ≤ l₂.length) :
    ∃ b, (a, b) ∈ l₁.zip l₂ := by
  induction l₁ generalizing l₂ with
  | nil => simp at ha
  | cons y t ih =>
    cases l₂ with
    | nil => simp at hlen
    | cons x s =>
      rcases List.mem_cons.1 ha with h1 | h2
      · exact ⟨x, by simp [h1]⟩
      · obtain ⟨b, hb⟩ := ih s h2 (by simpa using hlen)
        exact ⟨b, List.mem_cons_of_mem _ hb⟩

/-- Helper: when every entry of the batch passes the missing-mass gate,
the assembly loop returns one binned spectrum per entry. -/
theorem assemble_ok_of_forall (amp : ℚ)
    (l : List (List (ℕ × ℚ) × ℚ × Spectrum))
    (h : ∀ x ∈ l, 100 * x.2.1 ≤ amp) :
    ∃ out, assemble amp l = .ok out ∧ out.length = l.length := by
  induction l with
  | nil => exact ⟨[], rfl, rfl⟩
  | cons hd tl ih =>
    obtain ⟨pl, mf, s⟩ := hd
    have hhd : 100 * mf ≤ amp := h _ (List.mem_cons_self _ _)
    obtain ⟨out, ho, hlen⟩ := ih (fun x hx => h x (List.mem_cons_of_mem _ hx))
    refine ⟨{ binned_peaks := create_peak_dict pl, inchikey := s.inchikey } :: out,
      ?_, ?_⟩
    · simp only [assemble, if_pos hhd, ho]
    · simp [hlen]

/-- Helper: a batch containing an entry that violates the missing-mass
gate makes the assembly loop fail. -/
theorem assemble_error_of_exists (amp : ℚ)
    (l : List (List (ℕ × ℚ) × ℚ × Spectrum))
    (h : ∃ x ∈ l, ¬ 100 * x.2.1 ≤ amp) :
    ∃ msg, assemble amp l = .error msg := by
  induction l with
  | nil => simp at h
  | cons hd tl ih =>
    obtain ⟨pl, mf, s⟩ := hd
    by_cases hc : 100 * mf ≤ amp
    · obtain ⟨x, hx, hv⟩ := h
      rcases List.mem_cons.1 hx with hx1 | hx2
      · subst hx1
        exact absurd hc hv
      · obtain ⟨msg, hm⟩ := ih ⟨x, hx2, hv⟩
        exact ⟨msg, by simp only [assemble, if_pos hc, hm]⟩
    · exact ⟨"AssertionError: of weighted spectrum is unknown to the model",
        by simp only [assemble, if_neg hc]⟩

/-- C2: on a fit session, a `transform` batch in which every spectrum
satisfies `100 * missing_fraction <= allowed_missing_percentage`
(equality included) succeeds with one binned spectrum per input, and a
batch containing any spectrum violating the bound fails as a whole — no
binned spectra are returned for any spectrum of the batch. -/
theorem transform_missing_mass_gate (b : SpectrumBinnerCustom)
    (vocab : List (ℤ × ℕ)) (input_spectrums : List Spectrum)
    (hfit : b.peak_to_position = some vocab) :
    ((∀ mf ∈ (create_peak_list_custom input_spectrums vocab
          b.mz_bins b.peak_scaling).2,
        100 * mf ≤ b.allowed_missing_percentage) →
      ∃ out, b.transform input_spectrums = .ok out
        ∧ out.length = input_spectrums.length) ∧
    ((∃ mf ∈ (create_peak_list_custom input_spectrums vocab
          b.mz_bins b.peak_scaling).2,
        ¬ 100 * mf ≤ b.allowed_missing_percentage) →
      ∃ msg, b.transform input_spectrums = .error msg) := by
  have htr : b.transform input_spectrums
      = assemble b.allowed_missing_percentage
          ((create_peak_list_custom input_spectrums vocab
              b.mz_bins b.peak_scaling).1.zip
            ((create_peak_list_custom input_spectrums vocab
                b.mz_bins b.peak_scaling).2.zip input_spectrums)) := by
    unfold SpectrumBinnerCustom.transform
    rw [hfit]
  set P := create_peak_list_custom input_spectrums vocab b.mz_bins b.peak_scaling
    with hP
  have hlen1 : P.1.length = input_spectrums.length := by
    simp [hP, create_peak_list_custom]
  have hlen2 : P.2.length = input_spectrums.length := by
    simp [hP, create_peak_list_custom]
  constructor
  · intro hall
    obtain ⟨out, ho, hl⟩ := assemble_ok_of_forall b.allowed_missing_percentage
      (P.1.zip (P.2.zip input_spectrums))
      (fun x hx => hall x.2.1 (List.of_mem_zip (List.of_mem_zip hx).2).1)
    refine ⟨out, htr ▸ ho, ?_⟩
    rw [hl]
    simp [List.length_zip, hlen1, hlen2]
  · intro hex
    obtain ⟨mf, hmf, hv⟩ := hex
    obtain ⟨spec, hms⟩ := mem_zip_right_of_mem P.2 input_spectrums mf hmf
      (le_of_eq hlen2)
    obtain ⟨pl, hmpl⟩ := mem_zip_left_of_mem P.1 (P.2.zip input_spectrums)
      (mf, spec) hms
      (by simp [List.length_zip, hlen1, hlen2])
    obtain ⟨msg, hm⟩ := assemble_error_of_exists b.allowed_missing_percentage
      (P.1.zip (P.2.zip input_spectrums)) ⟨(pl, mf, spec), hmpl, hv⟩
    exact ⟨msg, htr ▸ hm⟩

set_option maxRecDepth 40000 in
/-- C2 (witness): on the concrete fit session `binnerFit` with
`allowed_missing_percentage = 0`, a batch whose bins are all known is
transformed, and a batch containing a spectrum with an unknown peak
(mass 80 of `spectrum6`) fails as a whole. -/
theorem transform_missing_mass_gate_witness :
    (∃ out, binnerFit.transform [spectrum5] = .ok out ∧ out.length = 1) ∧
    (∃ msg, binnerFit.transform [spectrum6] = .error msg) :=
  ⟨(transform_missing_mass_gate binnerFit vocabFit [spectrum5] rfl).1
      (by with_unfolding_all decide),
   (transform_missing_mass_gate binnerFit vocabFit [spectrum6] rfl).2
      (by with_unfolding_all decide)⟩

/-- Helper: summing weights read off by index over the positions of
`range` whose bin satisfies a predicate equals summing the second
components of the zipped (bin, weight) pairs filtered by the same
predicate on the first component. -/
theorem sum_getD_filter_range (p : ℤ → Bool) :
    ∀ (d : List ℤ) (w : List ℚ),
      (((List.range d.length).filter (fun i => p (d.getD i 0))).map
          (fun i => w.getD i 0)).sum
        = (((d.zip w).filter (fun bw => p bw.1)).map Prod.snd).sum
  | [], w => by simp
  | b :: d', [] => by
      simp [List.getD_nil, List.zip_nil_right]
  | b :: d', v :: w' => by
      have ih := sum_getD_filter_range p d' w'
      by_cases hb : p b <;>
      · simp [List.range_succ_eq_map, List.filter_cons, hb, List.filter_map,
          Function.comp_def, List.map_map, List.getD_cons_zero,
          List.getD_cons_succ]
        simpa using ih

/-- C3: the missing fraction reported by the Peak-List Encoder equals
the sum of the scaled weights of the out-of-vocabulary peaks divided by
the sum of the scaled weights of all peaks whenever at least one peak is
in the vocabulary; when no peak maps into the vocabulary — including a
spectrum with zero peaks — the missing fraction is exactly 1 and the
encoded peak list is empty. The last conjunct ties the per-spectrum
encoder to `create_peak_list_linear`. -/
theorem encode_linear_missing_fraction (binf : ℚ → ℤ)
    (peaks_vocab : List (ℤ × ℕ)) (peak_scaling : ℕ) (s : Spectrum) :
    ((∀ b ∈ s.mz.map binf, peaks_vocab.lookup b = none) →
      (encode_linear binf peaks_vocab peak_scaling s).1 = [] ∧
      (encode_linear binf peaks_vocab peak_scaling s).2 = 1) ∧
    ((∃ b ∈ s.mz.map binf, (peaks_vocab.lookup b).isSome) →
      (encode_linear binf peaks_vocab peak_scaling s).2
        = ((((s.mz.map binf).zip
              (s.intensities.map (fun x => x ^ peak_scaling))).filter
                (fun bw => (peaks_vocab.lookup bw.1).isNone)).map
                  Prod.snd).sum
          / (s.intensities.map (fun x => x ^ peak_scaling)).sum) ∧
    (create_peak_list_linear binf [s] peaks_vocab peak_scaling).2
      = [(encode_linear binf peaks_vocab peak_scaling s).2] := by
  have h1 : (encode_linear binf peaks_vocab peak_scaling s).1
      = (((List.range (s.mz.map binf).length).filter
            (fun i => (peaks_vocab.lookup ((s.mz.map binf).getD i 0)).isSome)).map
          (fun i => (peaks_vocab.lookup ((s.mz.map binf).getD i 0)).getD 0)).zip
        (((List.range (s.mz.map binf).length).filter
            (fun i => (peaks_vocab.lookup ((s.mz.map binf).getD i 0)).isSome)).map
          (fun i => (s.intensities.map (fun x => x ^ peak_scaling)).getD i 0)) := rfl
  have h2 : (encode_linear binf peaks_vocab peak_scaling s).2
      = (if (List.range (s.mz.map binf).length).filter
            (fun i => (peaks_vocab.lookup ((s.mz.map binf).getD i 0)).isSome) = []
        then (1 : ℚ)
        else (((List.range (s.mz.map binf).length).filter
                (fun i => !(decide (i ∈ (List.range (s.mz.map binf).length).filter
                  (fun j => (peaks_vocab.lookup
                    ((s.mz.map binf).getD j 0)).isSome))))).map
              (fun i => (s.intensities.map (fun x => x ^ peak_scaling)).getD i 0)).sum
          / (s.intensities.map (fun x => x ^ peak_scaling)).sum) := rfl
  refine ⟨?_, ?_, rfl⟩
  · intro hall
    have hempty : (List.range (s.mz.map binf).length).filter
        (fun i => (peaks_vocab.lookup ((s.mz.map binf).getD i 0)).isSome) = [] := by
      refine List.filter_eq_nil_iff.mpr ?_
      intro i hi
      have hilt : i < (s.mz.map binf).length := List.mem_range.1 hi
      rw [List.getD_eq_getElem _ _ hilt, hall _ (List.getElem_mem hilt)]
      simp
    constructor
    · rw [h1, hempty]
      simp
    · rw [h2, if_pos hempty]
  · intro hex
    obtain ⟨bb, hbmem, hbsome⟩ := hex
    obtain ⟨i, hilt, hieq⟩ := List.mem_iff_getElem.1 hbmem
    have hmemidx : i ∈ (List.range (s.mz.map binf).length).filter
        (fun j => (peaks_vocab.lookup ((s.mz.map binf).getD j 0)).isSome) := by
      refine List.mem_filter.2 ⟨List.mem_range.2 hilt, ?_⟩
      rw [List.getD_eq_getElem _ _ hilt, hieq]
      exact hbsome
    have hne := List.ne_nil_of_mem hmemidx
    rw [h2, if_neg hne]
    have hnot : (List.range (s.mz.map binf).length).filter
        (fun i => !(decide (i ∈ (List.range (s.mz.map binf).length).filter
          (fun j => (peaks_vocab.lookup ((s.mz.map binf).getD j 0)).isSome))))
        = (List.range (s.mz.map binf).length).filter
            (fun i => !((peaks_vocab.lookup ((s.mz.map binf).getD i 0)).isSome)) := by
      refine List.filter_congr ?_
      intro i hi
      have hiff : (i ∈ (List.range (s.mz.map binf).length).filter
            (fun j => (peaks_vocab.lookup ((s.mz.map binf).getD j 0)).isSome))
          ↔ ((peaks_vocab.lookup ((s.mz.map binf).getD i 0)).isSome = true) := by
        rw [List.mem_filter]
        exact and_iff_right hi
      cases hq : (peaks_vocab.lookup ((s.mz.map binf).getD i 0)).isSome with
      | false =>
        have hno : ¬ (i ∈ (List.range (s.mz.map binf).length).filter
            (fun j => (peaks_vocab.lookup ((s.mz.map binf).getD j 0)).isSome)) := by
          rw [hiff, hq]
          exact Bool.false_ne_true
        rw [decide_eq_false hno]
      | true =>
        have hyes := hiff.mpr hq
        rw [decide_eq_true hyes]
    rw [hnot, sum_getD_filter_range
      (fun b2 => !((peaks_vocab.lookup b2).isSome)) (s.mz.map binf)
      (s.intensities.map (fun x => x ^ peak_scaling))]
    have hfe : ((s.mz.map binf).zip
          (s.intensities.map (fun x => x ^ peak_scaling))).filter
            (fun bw => !((peaks_vocab.lookup bw.1).isSome))
        = ((s.mz.map binf).zip
            (s.intensities.map (fun x => x ^ peak_scaling))).filter
              (fun bw => (peaks_vocab.lookup bw.1).isNone) := by
      refine List.filter_congr ?_
      intro bw _
      cases peaks_vocab.lookup bw.1 <;> rfl
    rw [hfe]

/-- The repository's missing-fraction test case: masses
[10, 20, 25, 30, 40] with intensities [1, 1, 1, 1, 0.5], encoded (with
unit scaling, zero-slope quantizer with width 1 from mass 10) against a
vocabulary containing the bins 0, 10, 11, 20 and 30 but not bin 15 of
mass 25, report missing fraction 1 / 4.5 = 2/9. -/
theorem encode_linear_missing_fraction_example :
    (encode_linear (bin_number_linear_zero 1 10)
      [(0, 0), (10, 1), (11, 2), (20, 3), (30, 4)] 1
      ⟨[10, 20, 25, 30, 40], [1, 1, 1, 1, 1/2], none⟩).2 = 2/9 := by
  with_unfolding_all decide

end MS2DeepScore
